import Mathlib

/-!
Verification of `src/model_prediction.py` (a CLI that loads a pre-trained
model, reads a CSV, drops the `target` column if present, appends a
`predicted_target` column of per-row predictions, and writes the augmented
table next to the input with a `_with_predictions` filename suffix).

Modelling choices:
* Python strings are `List Char` (`Str` below); file paths, file contents and
  CSV cells are all `Str`.
* A pandas `DataFrame` is a list of column names plus a list of rows, each row
  a list of cells.  `Wellformed` states that every row has one cell per column
  (what `pd.read_csv` produces on a rectangular CSV).
* The loaded model is an opaque per-row prediction function
  `Model := List Str → Str` (scikit-learn estimators predict row-wise).
* The filesystem is a partial map `FS := Str → Option Str` from paths to file
  bytes; `pd.read_csv` on a missing path (raising `FileNotFoundError`) is
  `none`, and `DataFrame.to_csv` updates the map at the output path.
* `os.path.splitext` / `os.path.join` are embedded from CPython's posixpath
  implementations.
-/

namespace ModelPrediction

/-- A Python string, modelled as its list of code points. -/
abbrev Str := List Char

/-- `str.split(sep)` for a one-character separator, CPython semantics:
`"a,,b"` ↦ `["a","","b"]`, `""` ↦ `[""]`; the result is never empty. -/
def splitOnChar (sep : Char) : Str → List Str
  | [] => [[]]
  | c :: cs =>
    let r := splitOnChar sep cs
    if c = sep then [] :: r
    else
      match r with
      | [] => [[c]]
      | h :: t => (c :: h) :: t

/-- `sep.join(parts)` for a one-character separator. -/
def intercalate_char (sep : Char) : List Str → Str
  | [] => []
  | [x] => x
  | x :: y :: xs => x ++ sep :: intercalate_char sep (y :: xs)

/-- A pandas `DataFrame`: named columns and rows of cells. -/
structure DataFrame where
  cols : List Str
  rows : List (List Str)
  deriving DecidableEq, Repr

/-- Every row has exactly one cell per column (rectangular table, as produced
by `pd.read_csv` on a well-formed CSV). -/
def Wellformed (df : DataFrame) : Prop :=
  ∀ r ∈ df.rows, r.length = df.cols.length

instance (df : DataFrame) : Decidable (Wellformed df) := by
  unfold Wellformed; infer_instance

/-- One row of `df.drop(name, axis=1)`: drop the cells sitting under a column
named `name`. -/
def drop_row (cols : List Str) (name : Str) (r : List Str) : List Str :=
  ((cols.zip r).filter (fun q => q.1 ≠ name)).map Prod.snd

/-- `df.drop(name, axis=1)`: remove every column labelled `name`. -/
def drop_column (df : DataFrame) (name : Str) : DataFrame :=
  ⟨df.cols.filter (fun c => c ≠ name), df.rows.map (drop_row df.cols name)⟩

/-- The pure part of `ModelPredictor.preprocess_input`: drop the `target`
column if it exists (case-sensitive exact match), else no-op. -/
def preprocess_frame (data : DataFrame) : DataFrame :=
  if ("target".toList) ∈ data.cols then drop_column data ("target".toList)
  else data

/-- One row of `df[name] = vals` when column `name` exists: overwrite the
cells sitting under `name`, keep the others. -/
def set_row (cols : List Str) (name : Str) (r : List Str) (v : Str) : List Str :=
  (cols.zip r).map (fun q => if q.1 = name then v else q.2)

/-- pandas `df[name] = vals`: overwrite column `name` in place if it exists,
otherwise append it as the last column. -/
def set_column (df : DataFrame) (name : Str) (vals : List Str) : DataFrame :=
  if name ∈ df.cols then
    ⟨df.cols, List.zipWith (fun r v => set_row df.cols name r v) df.rows vals⟩
  else
    ⟨df.cols ++ [name], List.zipWith (fun r v => r ++ [v]) df.rows vals⟩

/-- `pd.read_csv` on file contents: split into lines, skip blank lines
(pandas `skip_blank_lines=True` default), first line is the header, cells are
comma-separated; an empty file raises (`none`). -/
def read_csv (contents : Str) : Option DataFrame :=
  match (splitOnChar '\n' contents).filter (fun l => l ≠ []) with
  | [] => none
  | header :: rest => some ⟨splitOnChar ',' header, rest.map (splitOnChar ',')⟩

/-- `df.to_csv(path, index=False)` file contents: header line then one line
per row, comma-separated, each line terminated by a newline, no index
column. -/
def to_csv (df : DataFrame) : Str :=
  intercalate_char ',' df.cols ++ '\n' ::
    (df.rows.map (fun r => intercalate_char ',' r ++ ['\n'])).flatten

/-- Helper for `splitext`, on the REVERSED path: find the run of characters
before the first `'.'` (i.e. after the last `'.'` of the original string),
failing if a `'/'` is hit first.  `some (a, rest)` means the reversed input is
`a ++ '.' :: rest` with no `'.'` or `'/'` in `a`. -/
def findExtRev : Str → Option (Str × Str)
  | [] => none
  | c :: cs =>
    if c = '.' then some ([], cs)
    else if c = '/' then none
    else
      match findExtRev cs with
      | some (a, rest) => some (c :: a, rest)
      | none => none

/-- `os.path.splitext` (CPython `genericpath._splitext` with `sep='/'`,
`extsep='.'`): split at the last `'.'` of the final path component, unless
every character of that component before the dot is itself a `'.'` (so
`".bashrc"` has no extension). -/
def splitext (p : Str) : Str × Str :=
  match findExtRev p.reverse with
  | none => (p, [])
  | some (a, rest) =>
    if (rest.takeWhile (fun c => c ≠ '/')).any (fun c => c ≠ '.') then
      (rest.reverse, '.' :: a.reverse)
    else (p, [])

/-- `make_predictions`' output filename: strip the extension with
`os.path.splitext` and append the literal `"_with_predictions.csv"`. -/
def output_csv_path (p : Str) : Str :=
  (splitext p).1 ++ "_with_predictions.csv".toList

/-- The loaded model artifact, as an opaque deterministic per-row predictor:
`model.predict(data)` is `data.rows.map model`. -/
abbrev Model := List Str → Str

/-- The filesystem: a map from paths to file contents. -/
abbrev FS := Str → Option Str

/-- `ModelPredictor.preprocess_input`: read the CSV at `file_path` into a
`DataFrame` (failing if the file is missing or empty), then drop the `target`
column if it exists. -/
def preprocess_input (fs : FS) (file_path : Str) : Option DataFrame :=
  match fs file_path with
  | none => none
  | some contents =>
    match read_csv contents with
    | none => none
    | some data => some (preprocess_frame data)

/-- The frame-level core of `make_predictions`: preprocess, predict row-wise,
and assign the predictions to the fixed column `predicted_target`. -/
def predict_frame (model : Model) (df : DataFrame) : DataFrame :=
  set_column (preprocess_frame df) ("predicted_target".toList)
    ((preprocess_frame df).rows.map model)

/-- `ModelPredictor.make_predictions`: preprocess the input CSV, predict,
append the `predicted_target` column, derive the output path, and write the
augmented table there (`index=False`).  `none` models an uncaught exception
(e.g. `FileNotFoundError` from `pd.read_csv`); on success it returns the
output path and the updated filesystem. -/
def make_predictions (model : Model) (fs : FS) (input_csv : Str) :
    Option (Str × FS) :=
  match preprocess_input fs input_csv with
  | none => none
  | some data =>
    let predictions := data.rows.map model
    let data' := set_column data ("predicted_target".toList) predictions
    let output_csv := output_csv_path input_csv
    some (output_csv, fun q => if q = output_csv then some (to_csv data') else fs q)

/-- One process invocation of `main`: on success the filesystem is updated and
the output path is printed (`some`); on an uncaught exception the process
exits with a non-zero status (`none`) and the filesystem is untouched. -/
def run (model : Model) (fs : FS) (input_csv : Str) : FS × Option Str :=
  match make_predictions model fs input_csv with
  | some (out, fs1) => (fs1, some out)
  | none => (fs, none)

/-- `os.path.join(a, b)` (posixpath, two arguments). -/
def os_path_join (a b : Str) : Str :=
  if b.head? = some '/' then b
  else if a = [] ∨ a.getLast? = some '/' then a ++ b
  else a ++ '/' :: b

/-- The execution context consulted by `ModelPredictor.__init__`:
`sys.frozen` (PyInstaller bundled mode) and `sys._MEIPASS` (the bundle's
extraction directory). -/
structure SysCtx where
  frozen : Bool
  meipass : Str

/-- The model-path resolution in `ModelPredictor.__init__`: in bundled mode
`os.path.join(sys._MEIPASS, 'model.joblib')`, otherwise the literal
`'model.joblib'`.  The `model_path` parameter is rebound in both branches. -/
def resolve_model_path (ctx : SysCtx) (model_path : Str) : Str :=
  if ctx.frozen then os_path_join ctx.meipass ("model.joblib".toList)
  else "model.joblib".toList

/-- `ModelPredictor.__init__`: resolve the artifact path and load it with
`joblib.load` (abstracted as `load`, `none` modelling a load failure). -/
def ModelPredictor_init (load : Str → Option Model) (ctx : SysCtx)
    (model_path : Str) : Option Model :=
  load (resolve_model_path ctx model_path)

/-! ### Helper lemmas about the path and list operations -/

lemma findExtRev_spec : ∀ (l a rest : Str), findExtRev l = some (a, rest) →
    l = a ++ '.' :: rest ∧ '.' ∉ a ∧ '/' ∉ a := by
  intro l
  induction l with
  | nil => intro a rest h; simp [findExtRev] at h
  | cons c cs ih =>
    intro a rest h
    by_cases hdot : c = '.'
    · rw [findExtRev, if_pos hdot] at h
      obtain ⟨ha, hrest⟩ := Prod.mk.injEq .. ▸ Option.some.inj h
      subst ha; subst hrest; subst hdot
      exact ⟨rfl, List.not_mem_nil _, List.not_mem_nil _⟩
    · by_cases hsl : c = '/'
      · rw [findExtRev, if_neg hdot, if_pos hsl] at h
        exact absurd h (by simp)
      · rw [findExtRev, if_neg hdot, if_neg hsl] at h
        cases hf : findExtRev cs with
        | none => rw [hf] at h; exact absurd h (by simp)
        | some pr =>
          obtain ⟨a', rest'⟩ := pr
          rw [hf] at h
          obtain ⟨ha, hrest⟩ := Prod.mk.injEq .. ▸ Option.some.inj h
          obtain ⟨heq, hd, hs⟩ := ih a' rest' hf
          subst ha; subst hrest
          refine ⟨by rw [heq]; rfl, ?_, ?_⟩
          · intro hm
            rcases List.mem_cons.mp hm with h1 | h1
            · exact hdot h1.symm
            · exact hd h1
          · intro hm
            rcases List.mem_cons.mp hm with h1 | h1
            · exact hsl h1.symm
            · exact hs h1

lemma splitext_append (p : Str) : (splitext p).1 ++ (splitext p).2 = p := by
  unfold splitext
  cases hf : findExtRev p.reverse with
  | none => simp
  | some pr =>
    obtain ⟨a, rest⟩ := pr
    obtain ⟨heq, -, -⟩ := findExtRev_spec _ _ _ hf
    have hp : p = rest.reverse ++ '.' :: a.reverse := by
      have h2 := congrArg List.reverse heq
      rw [List.reverse_reverse] at h2
      rw [h2, List.reverse_append, List.reverse_cons, List.append_assoc]
      simp
    dsimp only
    by_cases hc : (rest.takeWhile (fun c => c ≠ '/')).any (fun c => c ≠ '.') = true
    · rw [if_pos hc]; exact hp.symm
    · rw [if_neg hc]; simp

lemma splitext_ext (p : Str) :
    (splitext p).2 = [] ∨
    ∃ t, (splitext p).2 = '.' :: t ∧ '.' ∉ t ∧ '/' ∉ t := by
  unfold splitext
  cases hf : findExtRev p.reverse with
  | none => left; rfl
  | some pr =>
    obtain ⟨a, rest⟩ := pr
    obtain ⟨-, hd, hs⟩ := findExtRev_spec _ _ _ hf
    dsimp only
    by_cases hc : (rest.takeWhile (fun c => c ≠ '/')).any (fun c => c ≠ '.') = true
    · rw [if_pos hc]
      right
      exact ⟨a.reverse, rfl,
        fun hm => hd (List.mem_reverse.mp hm),
        fun hm => hs (List.mem_reverse.mp hm)⟩
    · rw [if_neg hc]; left; rfl

lemma output_csv_path_ne (p : Str) : output_csv_path p ≠ p := by
  intro h
  have h1 := splitext_append p
  unfold output_csv_path at h
  have h2 : ("_with_predictions.csv".toList : Str) = (splitext p).2 :=
    List.append_cancel_left (h.trans h1.symm)
  rcases splitext_ext p with he | ⟨t, ht, -, -⟩
  · rw [he] at h2; exact absurd h2 (by decide)
  · rw [ht] at h2
    have hh := congrArg List.head? h2
    rw [show (("_with_predictions.csv".toList : Str)).head? = some '_' from by decide]
      at hh
    simp at hh

lemma filter_zip_of_not_mem (name : Str) :
    ∀ (cols r : List Str), name ∉ cols →
      (cols.zip r).filter (fun q => q.1 ≠ name) = cols.zip r := by
  intro cols
  induction cols with
  | nil => intro r _; simp
  | cons c cs ih =>
    intro r h
    cases r with
    | nil => simp
    | cons v r' =>
      have hc : ¬(c = name) := fun hh => h (hh ▸ List.mem_cons_self c cs)
      have ht := ih r' (fun hm => h (List.mem_cons_of_mem c hm))
      simp only [List.zip_cons_cons, List.filter_cons]
      rw [if_pos (by simpa using hc), ht]

lemma filter_ne_of_not_mem (name : Str) (l : List Str) (h : name ∉ l) :
    l.filter (fun c => c ≠ name) = l := by
  induction l with
  | nil => rfl
  | cons c cs ih =>
    have hc : ¬(c = name) := fun hh => h (hh ▸ List.mem_cons_self c cs)
    rw [List.filter_cons, if_pos (by simpa using hc),
      ih (fun hm => h (List.mem_cons_of_mem c hm))]

lemma map_snd_zip_of_length (cols r : List Str) (h : r.length = cols.length) :
    (cols.zip r).map Prod.snd = r := by
  induction cols generalizing r with
  | nil => cases r with
    | nil => rfl
    | cons v r' => simp at h
  | cons c cs ih =>
    cases r with
    | nil => simp at h
    | cons v r' =>
      simp only [List.zip_cons_cons, List.map_cons]
      rw [ih r' (by simpa using h)]

lemma drop_row_of_not_mem (cols : List Str) (name : Str) (r : List Str)
    (h : name ∉ cols) (hl : r.length = cols.length) :
    drop_row cols name r = r := by
  unfold drop_row
  rw [filter_zip_of_not_mem name cols r h, map_snd_zip_of_length cols r hl]

lemma drop_row_split (name : Str) :
    ∀ (pre post r : List Str), name ∉ pre → name ∉ post →
      r.length = pre.length + (post.length + 1) →
      drop_row (pre ++ name :: post) name r
        = r.take pre.length ++ r.drop (pre.length + 1) := by
  intro pre
  induction pre with
  | nil =>
    intro post r _ hpost hlen
    cases r with
    | nil => simp at hlen
    | cons v r' =>
      unfold drop_row
      simp only [List.nil_append, List.zip_cons_cons, List.filter_cons]
      rw [if_neg (by simp), filter_zip_of_not_mem name post r' hpost,
        map_snd_zip_of_length post r' (by simpa using hlen)]
      simp
  | cons c pre' ih =>
    intro post r hpre hpost hlen
    cases r with
    | nil => simp at hlen; omega
    | cons v r' =>
      have hc : ¬(c = name) := fun hh => hpre (hh ▸ List.mem_cons_self c pre')
      have hstep : drop_row ((c :: pre') ++ name :: post) name (v :: r')
          = v :: drop_row (pre' ++ name :: post) name r' := by
        unfold drop_row
        simp only [List.cons_append, List.zip_cons_cons, List.filter_cons]
        rw [if_pos (by simpa using hc)]
        rfl
      rw [hstep, ih post r' (fun hm => hpre (List.mem_cons_of_mem c hm)) hpost
        (by simp at hlen; omega)]
      simp [List.take_succ_cons, List.drop_succ_cons]

lemma zipWith_map_self {α β γ : Type} (f : α → β → γ) (g : α → β) :
    ∀ l : List α, List.zipWith f l (l.map g) = l.map (fun a => f a (g a)) := by
  intro l
  induction l with
  | nil => rfl
  | cons a l ih => simp only [List.map_cons, List.zipWith_cons_cons, ih]

lemma count_filter_ne (a b : Str) (hab : a ≠ b) (l : List Str) :
    (l.filter (fun c => c ≠ b)).count a = l.count a := by
  induction l with
  | nil => rfl
  | cons c cs ih =>
    by_cases hc : c = b
    · simp only [List.filter_cons]
      rw [if_neg (by simpa using hc), ih]
      exact (List.count_cons_of_ne (fun hh => hab (hh.trans hc)) cs).symm
    · simp only [List.filter_cons]
      rw [if_pos (by simpa using hc)]
      rw [List.count_cons, List.count_cons, ih]

/-! ### Lemmas about the pipeline -/

lemma mem_preprocess_frame_cols (df : DataFrame) :
    ("predicted_target".toList : Str) ∈ (preprocess_frame df).cols ↔
    ("predicted_target".toList : Str) ∈ df.cols := by
  unfold preprocess_frame drop_column
  by_cases ht : ("target".toList : Str) ∈ df.cols
  · rw [if_pos ht]
    dsimp only
    simp only [List.mem_filter]
    constructor
    · exact fun hh => hh.1
    · intro hh; exact ⟨hh, by decide⟩
  · rw [if_neg ht]

lemma preprocess_frame_cols (df : DataFrame) :
    (preprocess_frame df).cols
      = df.cols.filter (fun c => c ≠ "target".toList) := by
  unfold preprocess_frame drop_column
  by_cases ht : ("target".toList : Str) ∈ df.cols
  · rw [if_pos ht]
  · rw [if_neg ht]
    exact (filter_ne_of_not_mem _ _ ht).symm

lemma preprocess_frame_rows (df : DataFrame) (hw : Wellformed df) :
    (preprocess_frame df).rows
      = df.rows.map (fun r => drop_row df.cols ("target".toList) r) := by
  unfold preprocess_frame drop_column
  by_cases ht : ("target".toList : Str) ∈ df.cols
  · rw [if_pos ht]
  · rw [if_neg ht]
    have hall : ∀ r ∈ df.rows, drop_row df.cols ("target".toList) r = r :=
      fun r hr => drop_row_of_not_mem df.cols _ r ht (hw r hr)
    calc df.rows = df.rows.map id := (List.map_id df.rows).symm
    _ = df.rows.map (fun r => drop_row df.cols ("target".toList) r) :=
        List.map_congr_left (fun r hr => (hall r hr).symm)

lemma predict_frame_rows_pre (model : Model) (df : DataFrame)
    (hpt : ("predicted_target".toList : Str) ∉ df.cols) :
    (predict_frame model df).rows
      = (preprocess_frame df).rows.map (fun r => r ++ [model r]) := by
  have hnm : ("predicted_target".toList : Str) ∉ (preprocess_frame df).cols :=
    fun hh => hpt ((mem_preprocess_frame_cols df).mp hh)
  unfold predict_frame set_column
  rw [if_neg hnm]
  dsimp only
  exact zipWith_map_self _ _ _

lemma predict_frame_cols_append (model : Model) (df : DataFrame)
    (hpt : ("predicted_target".toList : Str) ∉ df.cols) :
    (predict_frame model df).cols
      = df.cols.filter (fun c => c ≠ "target".toList)
          ++ ["predicted_target".toList] := by
  have hnm : ("predicted_target".toList : Str) ∉ (preprocess_frame df).cols :=
    fun hh => hpt ((mem_preprocess_frame_cols df).mp hh)
  unfold predict_frame set_column
  rw [if_neg hnm]
  dsimp only
  rw [preprocess_frame_cols]

lemma predict_frame_rows_feat (model : Model) (df : DataFrame)
    (hw : Wellformed df)
    (hpt : ("predicted_target".toList : Str) ∉ df.cols) :
    (predict_frame model df).rows
      = df.rows.map (fun r => drop_row df.cols ("target".toList) r
          ++ [model (drop_row df.cols ("target".toList) r)]) := by
  rw [predict_frame_rows_pre model df hpt, preprocess_frame_rows df hw,
    List.map_map]
  rfl

lemma make_predictions_eq (model : Model) (fs : FS) (p c : Str)
    (df : DataFrame) (h1 : fs p = some c) (h2 : read_csv c = some df) :
    make_predictions model fs p
      = some (output_csv_path p,
          fun q => if q = output_csv_path p
                   then some (to_csv (predict_frame model df)) else fs q) := by
  unfold make_predictions preprocess_input predict_frame
  rw [h1]
  dsimp only
  rw [h2]

lemma make_predictions_some (model : Model) (fs : FS) (p out : Str) (fs1 : FS)
    (h : make_predictions model fs p = some (out, fs1)) :
    ∃ c df, fs p = some c ∧ read_csv c = some df ∧ out = output_csv_path p ∧
      fs1 = fun q => if q = output_csv_path p
                     then some (to_csv (predict_frame model df)) else fs q := by
  cases hc : fs p with
  | none =>
    unfold make_predictions preprocess_input at h
    rw [hc] at h
    exact absurd h (by simp)
  | some c =>
    cases hd : read_csv c with
    | none =>
      unfold make_predictions preprocess_input at h
      rw [hc] at h
      dsimp only at h
      rw [hd] at h
      exact absurd h (by simp)
    | some df =>
      rw [make_predictions_eq model fs p c df hc hd] at h
      obtain ⟨h3, h4⟩ := Prod.mk.injEq .. ▸ Option.some.inj h
      exact ⟨c, df, rfl, hd, h3.symm, h4.symm⟩

/-! ### Concrete data used by the witnesses -/

/-- The end-to-end stub model: a constant per-row prediction. -/
def model0 : Model := fun _ => "9".toList

/-- Contents of the sample input `t.csv` (with a `target` column). -/
def c0 : Str := "a,b,target\n1,2,0\n3,4,1\n".toList

/-- The table parsed from `c0`. -/
def df0 : DataFrame :=
  ⟨["a".toList, "b".toList, "target".toList],
   [["1".toList, "2".toList, "0".toList],
    ["3".toList, "4".toList, "1".toList]]⟩

/-- A filesystem holding just `t.csv`. -/
def fs0 : FS := fun q => if q = "t.csv".toList then some c0 else none

/-- The filesystem after one successful run on `fs0`. -/
def fsAfter : FS := fun q =>
  if q = output_csv_path ("t.csv".toList)
  then some (to_csv (predict_frame model0 df0)) else fs0 q

/-- A table that already carries a `predicted_target` column. -/
def df1 : DataFrame :=
  ⟨["a".toList, "predicted_target".toList],
   [["1".toList, "7".toList], ["3".toList, "8".toList]]⟩

/-- Contents of a sample input with no `target` column. -/
def cNoT : Str := "a,b\n1,2\n".toList

/-- The table parsed from `cNoT`. -/
def dfNoT : DataFrame :=
  ⟨["a".toList, "b".toList], [["1".toList, "2".toList]]⟩

/-- A filesystem holding just `u.csv` (no `target` column inside). -/
def fsNoT : FS := fun q => if q = "u.csv".toList then some cNoT else none

/-- The empty filesystem. -/
def fsEmpty : FS := fun _ => none

/-! ### The claims -/

/-- C1: `make_predictions` preserves row count and row order: the output
table's row `i` is input row `i`'s feature cells (the `target` column
removed) with the model's prediction for exactly those cells appended under
the fixed `predicted_target` column. -/
theorem make_predictions_row_alignment (model : Model) (fs : FS) (p c : Str)
    (df : DataFrame) (h1 : fs p = some c) (h2 : read_csv c = some df)
    (hw : Wellformed df)
    (hpt : ("predicted_target".toList : Str) ∉ df.cols) :
    ∃ fs1, make_predictions model fs p = some (output_csv_path p, fs1) ∧
      fs1 (output_csv_path p) = some (to_csv (predict_frame model df)) ∧
      (predict_frame model df).rows
        = df.rows.map (fun r => drop_row df.cols ("target".toList) r
            ++ [model (drop_row df.cols ("target".toList) r)]) ∧
      (predict_frame model df).rows.length = df.rows.length ∧
      ∀ (i : Nat) (r : List Str), df.rows[i]? = some r →
        (predict_frame model df).rows[i]?
          = some (drop_row df.cols ("target".toList) r
              ++ [model (drop_row df.cols ("target".toList) r)]) := by
  have hrows := predict_frame_rows_feat model df hw hpt
  refine ⟨_, make_predictions_eq model fs p c df h1 h2, ?_, hrows, ?_, ?_⟩
  · dsimp only
    rw [if_pos rfl]
  · rw [hrows, List.length_map]
  · intro i r hr
    rw [hrows, List.getElem?_map, hr]
    rfl

/-- Witness for C1: the concrete run on `t.csv` with the stub model. -/
theorem make_predictions_row_alignment_witness :
    ∃ fs1, make_predictions model0 fs0 ("t.csv".toList)
        = some (output_csv_path ("t.csv".toList), fs1) ∧
      fs1 (output_csv_path ("t.csv".toList))
        = some (to_csv (predict_frame model0 df0)) ∧
      (predict_frame model0 df0).rows
        = df0.rows.map (fun r => drop_row df0.cols ("target".toList) r
            ++ [model0 (drop_row df0.cols ("target".toList) r)]) ∧
      (predict_frame model0 df0).rows.length = df0.rows.length ∧
      ∀ (i : Nat) (r : List Str), df0.rows[i]? = some r →
        (predict_frame model0 df0).rows[i]?
          = some (drop_row df0.cols ("target".toList) r
              ++ [model0 (drop_row df0.cols ("target".toList) r)]) :=
  make_predictions_row_alignment model0 fs0 ("t.csv".toList) c0 df0
    (by decide) (by decide) (by decide) (by decide)

/-- C2: on a table whose columns contain `target` exactly once (exact,
case-sensitive match), `preprocess_input` removes exactly that column and
keeps every other column, and every row's other cells, in their original
order. -/
theorem preprocess_input_drops_target (fs : FS) (p c : Str) (df : DataFrame)
    (pre post : List Str) (h1 : fs p = some c) (h2 : read_csv c = some df)
    (hw : Wellformed df)
    (hcols : df.cols = pre ++ "target".toList :: post)
    (hpre : ("target".toList : Str) ∉ pre)
    (hpost : ("target".toList : Str) ∉ post) :
    preprocess_input fs p
      = some ⟨pre ++ post,
          df.rows.map (fun r =>
            r.take pre.length ++ r.drop (pre.length + 1))⟩ := by
  unfold preprocess_input
  rw [h1]
  dsimp only
  rw [h2]
  dsimp only
  have ht : ("target".toList : Str) ∈ df.cols := by
    rw [hcols]; exact List.mem_append_right pre (List.mem_cons_self _ _)
  unfold preprocess_frame drop_column
  rw [if_pos ht]
  rw [hcols, List.filter_append, filter_ne_of_not_mem _ pre hpre,
    List.filter_cons, if_neg (by simp), filter_ne_of_not_mem _ post hpost]
  congr 2
  refine List.map_congr_left ?_
  intro r hr
  refine drop_row_split _ pre post r hpre hpost ?_
  have hlen := hw r hr
  rw [hcols] at hlen
  rw [hlen, List.length_append, List.length_cons]

/-- Witness for C2: dropping `target` from the concrete three-column table. -/
theorem preprocess_input_drops_target_witness :
    preprocess_input fs0 ("t.csv".toList)
      = some ⟨["a".toList, "b".toList] ++ [],
          df0.rows.map (fun r =>
            r.take (["a".toList, "b".toList] : List Str).length
              ++ r.drop ((["a".toList, "b".toList] : List Str).length + 1))⟩ :=
  preprocess_input_drops_target fs0 ("t.csv".toList) c0 df0
    ["a".toList, "b".toList] [] (by decide) (by decide) (by decide)
    (by decide) (by decide) (by decide)

/-- C3: on a table with no column named `target`, `preprocess_input` returns
the parsed table entirely unchanged (same columns, rows and cells). -/
theorem preprocess_input_no_target (fs : FS) (p c : Str) (df : DataFrame)
    (h1 : fs p = some c) (h2 : read_csv c = some df)
    (h : ("target".toList : Str) ∉ df.cols) :
    preprocess_input fs p = some df := by
  unfold preprocess_input
  rw [h1]
  dsimp only
  rw [h2]
  dsimp only
  unfold preprocess_frame
  rw [if_neg h]

/-- Witness for C3: the two-column table is passed through untouched. -/
theorem preprocess_input_no_target_witness :
    preprocess_input fsNoT ("u.csv".toList) = some dfNoT :=
  preprocess_input_no_target fsNoT ("u.csv".toList) cNoT dfNoT
    (by decide) (by decide) (by decide)

/-- C4: the output location is obtained by stripping exactly the final
extension of the input path (the part from the last dot of the last
component, CPython `splitext`) and appending the literal
`_with_predictions` plus the `.csv` extension; in particular on `foo.csv`
and `archive/data.v2.csv`. -/
theorem output_path_derivation :
    output_csv_path ("foo.csv".toList) = "foo_with_predictions.csv".toList ∧
    output_csv_path ("archive/data.v2.csv".toList)
      = "archive/data.v2_with_predictions.csv".toList ∧
    ∀ p : Str,
      (splitext p).1 ++ (splitext p).2 = p ∧
      output_csv_path p = (splitext p).1 ++ "_with_predictions.csv".toList ∧
      ((splitext p).2 = [] ∨
        ∃ t, (splitext p).2 = '.' :: t ∧ '.' ∉ t ∧ '/' ∉ t) :=
  ⟨by decide, by decide, fun p => ⟨splitext_append p, rfl, splitext_ext p⟩⟩

/-- C5: `ModelPredictor.__init__` ignores its `model_path` argument — the
loaded location is fully determined by the execution context: the bundle
directory joined with `model.joblib` in frozen mode, the literal
`model.joblib` otherwise. -/
theorem init_ignores_model_path (load : Str → Option Model) (ctx : SysCtx)
    (p q : Str) :
    ModelPredictor_init load ctx p = ModelPredictor_init load ctx q ∧
    resolve_model_path ctx p
      = (if ctx.frozen then os_path_join ctx.meipass ("model.joblib".toList)
         else "model.joblib".toList) :=
  ⟨rfl, rfl⟩

/-- C6: if the input file is missing, `make_predictions` raises before any
write is attempted: the run fails (modelling the non-zero exit) and the
filesystem is left exactly as it was, so no output file is created. -/
theorem missing_input_no_output (model : Model) (fs : FS) (p : Str)
    (h : fs p = none) :
    make_predictions model fs p = none ∧ run model fs p = (fs, none) := by
  have hm : make_predictions model fs p = none := by
    unfold make_predictions preprocess_input
    rw [h]
  exact ⟨hm, by unfold run; rw [hm]⟩

/-- Witness for C6: running against the empty filesystem. -/
theorem missing_input_no_output_witness :
    make_predictions model0 fsEmpty ("t.csv".toList) = none ∧
    run model0 fsEmpty ("t.csv".toList) = (fsEmpty, none) :=
  missing_input_no_output model0 fsEmpty ("t.csv".toList) rfl

/-- C7: idempotence — a second run on the same input with the same model
succeeds, writes to the same derived location, and leaves the filesystem
byte-for-byte as after the first run (the overwrite reproduces identical
contents). -/
theorem predict_idempotent (model : Model) (fs : FS) (p c : Str)
    (df : DataFrame) (h1 : fs p = some c) (h2 : read_csv c = some df) :
    ∃ fs1, make_predictions model fs p = some (output_csv_path p, fs1) ∧
      make_predictions model fs1 p = some (output_csv_path p, fs1) ∧
      fs1 (output_csv_path p) = some (to_csv (predict_frame model df)) := by
  have hne : p ≠ output_csv_path p := fun hh => output_csv_path_ne p hh.symm
  refine ⟨_, make_predictions_eq model fs p c df h1 h2, ?_, ?_⟩
  · have h1' : (fun q => if q = output_csv_path p
        then some (to_csv (predict_frame model df)) else fs q) p = some c := by
      dsimp only
      rw [if_neg hne]
      exact h1
    rw [make_predictions_eq model _ p c df h1' h2]
    congr 1
    congr 1
    funext q
    by_cases hq : q = output_csv_path p <;> simp [hq]
  · dsimp only
    rw [if_pos rfl]

/-- Witness for C7: the concrete double run on `t.csv`. -/
theorem predict_idempotent_witness :
    ∃ fs1, make_predictions model0 fs0 ("t.csv".toList)
        = some (output_csv_path ("t.csv".toList), fs1) ∧
      make_predictions model0 fs1 ("t.csv".toList)
        = some (output_csv_path ("t.csv".toList), fs1) ∧
      fs1 (output_csv_path ("t.csv".toList))
        = some (to_csv (predict_frame model0 df0)) :=
  predict_idempotent model0 fs0 ("t.csv".toList) c0 df0 (by decide) (by decide)

/-- C8: the written output file is a comma-separated table with a header row
listing exactly the original feature columns (minus `target`) followed by
`predicted_target`, then one comma-separated line per row whose last cell is
the prediction — no row-index column anywhere. -/
theorem output_table_format (model : Model) (fs : FS) (p c : Str)
    (df : DataFrame) (h1 : fs p = some c) (h2 : read_csv c = some df)
    (hpt : ("predicted_target".toList : Str) ∉ df.cols) :
    ∃ fs1, make_predictions model fs p = some (output_csv_path p, fs1) ∧
      fs1 (output_csv_path p)
        = some (intercalate_char ','
              (df.cols.filter (fun col => col ≠ "target".toList)
                ++ ["predicted_target".toList]) ++ '\n' ::
            ((preprocess_frame df).rows.map
              (fun r => intercalate_char ','
                (r ++ [model r]) ++ ['\n'])).flatten) := by
  refine ⟨_, make_predictions_eq model fs p c df h1 h2, ?_⟩
  dsimp only
  rw [if_pos rfl]
  unfold to_csv
  rw [predict_frame_cols_append model df hpt,
    predict_frame_rows_pre model df hpt, List.map_map]
  rfl

/-- Witness for C8: the concrete output file written for `t.csv`. -/
theorem output_table_format_witness :
    ∃ fs1, make_predictions model0 fs0 ("t.csv".toList)
        = some (output_csv_path ("t.csv".toList), fs1) ∧
      fs1 (output_csv_path ("t.csv".toList))
        = some (intercalate_char ','
              (df0.cols.filter (fun col => col ≠ "target".toList)
                ++ ["predicted_target".toList]) ++ '\n' ::
            ((preprocess_frame df0).rows.map
              (fun r => intercalate_char ','
                (r ++ [model0 r]) ++ ['\n'])).flatten) :=
  output_table_format model0 fs0 ("t.csv".toList) c0 df0
    (by decide) (by decide) (by decide)

/-- C9: when the input table already has a `predicted_target` column, the
assignment overwrites that column in place: the column list is unchanged (in
particular no duplicate column is appended, and the number of
`predicted_target` columns stays the same), and every row keeps its other
cells while the cells under `predicted_target` become the model's prediction
for that row. -/
theorem predicted_target_overwritten (model : Model) (df : DataFrame)
    (h : ("predicted_target".toList : Str) ∈ df.cols) :
    (predict_frame model df).cols = (preprocess_frame df).cols ∧
    (predict_frame model df).cols.count ("predicted_target".toList)
      = df.cols.count ("predicted_target".toList) ∧
    (predict_frame model df).rows
      = (preprocess_frame df).rows.map (fun r =>
          ((preprocess_frame df).cols.zip r).map
            (fun q => if q.1 = "predicted_target".toList
                      then model r else q.2)) := by
  have hmem : ("predicted_target".toList : Str) ∈ (preprocess_frame df).cols :=
    (mem_preprocess_frame_cols df).mpr h
  have hcols : (predict_frame model df).cols = (preprocess_frame df).cols := by
    unfold predict_frame set_column
    rw [if_pos hmem]
  refine ⟨hcols, ?_, ?_⟩
  · rw [hcols, preprocess_frame_cols]
    exact count_filter_ne _ _ (by decide) df.cols
  · unfold predict_frame set_column
    rw [if_pos hmem]
    dsimp only
    rw [zipWith_map_self]
    rfl

/-- Witness for C9: overwriting the existing `predicted_target` column of the
concrete table `df1`. -/
theorem predicted_target_overwritten_witness :
    (predict_frame model0 df1).cols = (preprocess_frame df1).cols ∧
    (predict_frame model0 df1).cols.count ("predicted_target".toList)
      = df1.cols.count ("predicted_target".toList) ∧
    (predict_frame model0 df1).rows
      = (preprocess_frame df1).rows.map (fun r =>
          ((preprocess_frame df1).cols.zip r).map
            (fun q => if q.1 = "predicted_target".toList
                      then model0 r else q.2)) :=
  predicted_target_overwritten model0 df1 (by decide)

/-- C10: frame property — a successful `make_predictions` writes only the
derived output path, which always differs from the input path (the non-empty
`_with_predictions` suffix is inserted before the extension), and the input
file's bytes are unchanged. -/
theorem input_file_unmodified (model : Model) (fs : FS) (p out : Str)
    (fs1 : FS) (h : make_predictions model fs p = some (out, fs1)) :
    out = output_csv_path p ∧ out ≠ p ∧ fs1 p = fs p ∧
    ∀ q, q ≠ out → fs1 q = fs q := by
  obtain ⟨c, df, hc, hd, hout, hfs1⟩ := make_predictions_some model fs p out fs1 h
  subst hout
  subst hfs1
  refine ⟨rfl, output_csv_path_ne p, ?_, ?_⟩
  · dsimp only
    rw [if_neg (fun hh => output_csv_path_ne p hh.symm)]
  · intro q hq
    dsimp only
    rw [if_neg hq]

/-- Witness for C10: the concrete run on `t.csv` leaves `t.csv` intact and
touches only `t_with_predictions.csv`. -/
theorem input_file_unmodified_witness :
    output_csv_path ("t.csv".toList) = output_csv_path ("t.csv".toList) ∧
    output_csv_path ("t.csv".toList) ≠ "t.csv".toList ∧
    fsAfter ("t.csv".toList) = fs0 ("t.csv".toList) ∧
    ∀ q, q ≠ output_csv_path ("t.csv".toList) → fsAfter q = fs0 q :=
  input_file_unmodified model0 fs0 ("t.csv".toList)
    (output_csv_path ("t.csv".toList)) fsAfter
    (make_predictions_eq model0 fs0 ("t.csv".toList) c0 df0
      (by decide) (by decide))

end ModelPrediction
